import Mathlib

/-
Verification development for the CrawlSpider rule-driven link-following
engine (src/scrapy/spiders/crawl.py).

The Python module is shallowly embedded: pure functions of the source
become Lean functions; the per-response traversal generators become
structural recursions that pass the seen-set state explicitly; Python
`None` results are `Option`; a Python runtime error (calling `None`)
is `Except.error`.  Collaborator values that the engine only passes
around (items, link extractors, settings) are opaque type parameters
or plain functions.  The two helpers the engine imports from elsewhere
in the repository (`iterate_spider_output`, `collect_asyncgen`) are
not part of the sources being verified and are modelled from the spec;
their doc comments say so explicitly.
-/

namespace ScrapyCrawl

/-- Modelled from the spec (section 3): a Link is a value object
`{url, anchor_text}` produced by a Link Extractor; identity (used by the
per-response seen-set) is by `url`.  The class `scrapy.link.Link` itself is
outside the verified sources. -/
structure Link where
  url : String
  text : String
deriving DecidableEq, Repr

/-- A follow request as built by `CrawlSpider._build_request`: the target url
plus the routing metadata `meta = {"rule": rule_index, "link_text": link.text}`.
The callback/errback fields of a real `Request` are always the engine's own
`_callback`/`_errback` and are left implicit. -/
structure Request where
  url : String
  rule_index : Nat
  link_text : String
deriving DecidableEq, Repr

/-- The slice of a fetched response the engine consumes: `html` says whether
the object `isinstance(response, HtmlResponse)`; `links` holds the candidate
links present in the page, as the catch-all default `LinkExtractor` (an
external collaborator) would produce them; `meta_rule` is the `"rule"` routing
metadata echoed back from the originating request (absent for start pages). -/
structure Response where
  url : String
  html : Bool
  links : List Link
  meta_rule : Option Nat
deriving DecidableEq, Repr

/-- A fetch failure as handed to `CrawlSpider._errback`: it carries the
request it originated from (`failure.request`). -/
structure Failure where
  request : Request
deriving DecidableEq, Repr

/-- One element of a callback's produced sequence: either a scalar output or
an element that is itself a nested iterable (to be expanded one level by the
result merger). -/
inductive CbElem (ω : Type) where
  | scalar : ω → CbElem ω
  | nested : List ω → CbElem ω
deriving DecidableEq, Repr

/-- The value a callback's result resolves to once any awaiting is done:
Python `None`, or a materialized sequence of elements. -/
inductive CbValue (ω : Type) where
  | nil : CbValue ω
  | seq : List (CbElem ω) → CbValue ω
deriving DecidableEq, Repr

/-- The three callback-return shapes `parse_with_rules` distinguishes with
`isinstance` checks: a plain (synchronous) value, a single awaitable resolving
to a value, or an asynchronous iterator producing elements. -/
inductive CbRes (ω : Type) where
  | plain : CbValue ω → CbRes ω
  | await1 : CbValue ω → CbRes ω
  | asyncGen : List (CbElem ω) → CbRes ω
deriving DecidableEq, Repr

/-- An object in the engine's output stream: an opaque item value produced by
user code, a `Request` object, or Python `None` (which `_requests_to_follow`
yields when a request filter returns `None`). -/
inductive Obj (α : Type) where
  | val : α → Obj α
  | req : Request → Obj α
  | pyNone : Obj α
deriving DecidableEq, Repr

/-- Keyword arguments, modelled as an association list from names to opaque
string values. -/
abbrev Kwargs : Type := List (String × String)

/-- The type of a compiled response callback: `callback(response, **cb_kwargs)`. -/
abbrev Callback (α : Type) : Type := Response → Kwargs → CbRes (Obj α)

/-- The type of a compiled error callback: `errback(failure)`. -/
abbrev Errback (α : Type) : Type := Failure → CbRes (Obj α)

/-- `ProcessLinksT = Callable[[list[Link]], list[Link]]`. -/
abbrev ProcessLinksT : Type := List Link → List Link

/-- `ProcessRequestT = Callable[[Request, Response], Optional[Request]]`. -/
abbrev ProcessRequestT : Type := Request → Response → Option Request

/-- `_identity`: the default `process_links` filter. -/
def _identity : ProcessLinksT := fun x => x

/-- `_identity_process_request`: the default `process_request` filter. -/
def _identity_process_request : ProcessRequestT := fun request _response => some request

/-- A compiled `Rule` as `_requests_to_follow`/`parse_with_rules` consume it:
`callback` and `errback` are callable-or-absent (the code guards them with
`if callback:` / `if errback:`), while `process_links` and `process_request`
are used under a `cast` asserting they are callable; the compiled state in
which those casts can fail is `CompiledRule` below.  `link_extractor` is the
collaborator function `extract_links`. -/
structure Rule (α : Type) where
  link_extractor : Response → List Link
  callback : Option (Callback α)
  errback : Option (Errback α)
  cb_kwargs : Kwargs
  process_links : ProcessLinksT
  process_request : ProcessRequestT
  follow : Bool

/-- The spider state the traversal reads: the compiled rule table `_rules`,
the instance-wide `_follow_links` switch, and the `process_results` hook
(identity in `CrawlSpider` itself, overridable by subclasses). -/
structure CrawlSpider (α : Type) where
  rules : List (Rule α)
  follow_links : Bool
  process_results : Response → CbValue (Obj α) → CbValue (Obj α)

/-- Modelled from the spec (section 4.4): `collect_asyncgen`
(scrapy/utils/asyncgen.py, not under the verified sources) drains an
asynchronous iterator into a list, preserving order. -/
def collect_asyncgen {β : Type} (xs : List β) : List β := xs

/-- Expand a produced sequence one level: scalar elements pass through
untouched, nested iterables are expanded element-by-element, in source
order. -/
def flattenOne {ω : Type} : List (CbElem ω) → List ω
  | [] => []
  | CbElem.scalar a :: rest => a :: flattenOne rest
  | CbElem.nested xs :: rest => xs ++ flattenOne rest

/-- The one-level expansion of a single produced element: a scalar passes
through as a singleton, a nested iterable contributes its elements. -/
def elem_list {ω : Type} : CbElem ω → List ω
  | CbElem.scalar a => [a]
  | CbElem.nested l => l

/-- Modelled from the spec (section 4.4): `iterate_spider_output`
(scrapy/utils/spider.py, not under the verified sources).  It accepts any of
the three callback-return shapes and re-exposes it as one uniform sequence:
a null/empty result normalizes to the empty sequence, and each produced
element that is itself a nested iterable is flattened exactly one level, in
source order. -/
def iterate_spider_output {ω : Type} : CbRes ω → List ω
  | CbRes.plain CbValue.nil => []
  | CbRes.plain (CbValue.seq xs) => flattenOne xs
  | CbRes.await1 CbValue.nil => []
  | CbRes.await1 (CbValue.seq xs) => flattenOne xs
  | CbRes.asyncGen xs => flattenOne xs

/-- Python `x or ()` as applied to a callback result: a falsy plain value
(`None`; an empty materialized sequence is already `CbValue.seq []`) is
replaced by the empty tuple.  Awaitables and async-generator objects are
always truthy and pass through. -/
def or_empty {ω : Type} : CbRes ω → CbRes ω
  | CbRes.plain CbValue.nil => CbRes.plain (CbValue.seq [])
  | r => r

/-- `CrawlSpider._build_request(rule_index, link)`. -/
def _build_request (rule_index : Nat) (link : Link) : Request :=
  { url := link.url, rule_index := rule_index, link_text := link.text }

/-- The inner loop of `CrawlSpider._requests_to_follow`:
`for link in rule.process_links(links): seen.add(link); request = ...;
yield rule.process_request(request, response)`.  The seen-set is threaded as
a list of urls (Link identity is by url). -/
def followLoop {α : Type} (rule : Rule α) (response : Response) (rule_index : Nat) :
    List Link → List String → List (Option Request) × List String
  | [], seen => ([], seen)
  | link :: rest, seen =>
    let seen2 := link.url :: seen
    let request := _build_request rule_index link
    let out := rule.process_request request response
    let next := followLoop rule response rule_index rest seen2
    (out :: next.1, next.2)

/-- The outer loop of `CrawlSpider._requests_to_follow` over
`enumerate(self._rules)`: each rule extracts candidate links, drops the ones
whose url is already in the seen-set, and runs the inner loop on
`rule.process_links(links)`. -/
def rulesLoop {α : Type} (response : Response) :
    List (Rule α) → Nat → List String → List (Option Request)
  | [], _, _ => []
  | rule :: rest, rule_index, seen =>
    let links := (rule.link_extractor response).filter fun lnk => decide (lnk.url ∉ seen)
    let step := followLoop rule response rule_index (rule.process_links links) seen
    step.1 ++ rulesLoop response rest (rule_index + 1) step.2

/-- `CrawlSpider._requests_to_follow(response)`: non-HTML responses yield
nothing; otherwise the rule table is traversed with a fresh seen-set.  The
produced elements are `rule.process_request(request, response)` results,
which may be `none`. -/
def _requests_to_follow {α : Type} (s : CrawlSpider α) (response : Response) :
    List (Option Request) :=
  if response.html then rulesLoop response s.rules 0 [] else []

/-- The object `parse_with_rules` actually yields for one element of
`_requests_to_follow`: the request, or Python `None`. -/
def req_or_none {α : Type} : Option Request → Obj α
  | some r => Obj.req r
  | none => Obj.pyNone

/-- `CrawlSpider.parse_with_rules(response, callback, cb_kwargs, follow)`:
if a callback is bound, its result is or-defaulted to `()`, awaited/collected
according to its shape, passed through `process_results`, normalized by
`iterate_spider_output` and yielded; afterwards, if both the `follow`
argument and the instance-wide `_follow_links` switch are on, every element
of `_requests_to_follow` is yielded. -/
def parse_with_rules {α : Type} (s : CrawlSpider α) (response : Response)
    (callback : Option (Callback α)) (cb_kwargs : Kwargs) (follow : Bool) :
    List (Obj α) :=
  (match callback with
    | none => []
    | some cb =>
      let cb_res := or_empty (cb response cb_kwargs)
      let cb_res2 :=
        match cb_res with
        | CbRes.asyncGen g => CbValue.seq (collect_asyncgen g)
        | CbRes.await1 v => v
        | CbRes.plain v => v
      let cb_res3 := s.process_results response cb_res2
      iterate_spider_output (CbRes.plain cb_res3))
  ++ (if follow && s.follow_links then
        (_requests_to_follow s response).map req_or_none
      else [])

/-- `CrawlSpider._handle_failure(failure, errback)`: if an errback is bound,
its result is or-defaulted to `()` and normalized by
`iterate_spider_output`; otherwise nothing is yielded. -/
def _handle_failure {α : Type} (failure : Failure) (errback : Option (Errback α)) :
    List (Obj α) :=
  match errback with
  | none => []
  | some eb => iterate_spider_output (or_empty (eb failure))

/-- `CrawlSpider._errback(failure)`: look up the rule the failing request was
tagged with and hand its errback to `_handle_failure`.  The source indexes
`self._rules[...]` directly; an out-of-range index (impossible by
construction) is modelled as `none`. -/
def _errback {α : Type} (s : CrawlSpider α) (failure : Failure) :
    Option (List (Obj α)) :=
  (s.rules.get? failure.request.rule_index).map fun rule =>
    _handle_failure failure rule.errback

/-- Python `{**a, **b}` on keyword arguments: entries of `b` win; an entry of
`a` whose key also occurs in `b` takes `b`'s value (the model keeps it at
`b`'s position, which is lookup-faithful). -/
def merge_kwargs (a b : Kwargs) : Kwargs :=
  a.filter (fun p => !(b.any fun q => q.1 == p.1)) ++ b

/-- `CrawlSpider._callback(response)`: read the `"rule"` routing metadata off
the response, look up the compiled rule, and run `parse_with_rules` with that
rule's callback, merged kwargs and follow flag.  Missing metadata or index is
modelled as `none`. -/
def _callback {α : Type} (s : CrawlSpider α) (response : Response)
    (cb_kwargs : Kwargs) : Option (List (Obj α)) :=
  response.meta_rule.bind fun i =>
    (s.rules.get? i).map fun rule =>
      parse_with_rules s response rule.callback
        (merge_kwargs rule.cb_kwargs cb_kwargs) rule.follow

/-- `CrawlSpider.from_crawler`: the instance-wide follow switch is read from
the `CRAWLSPIDER_FOLLOW_LINKS` boolean setting. -/
def from_crawler {α : Type} (s : CrawlSpider α) (settings : String → Bool) :
    CrawlSpider α :=
  { s with follow_links := settings "CRAWLSPIDER_FOLLOW_LINKS" }

/-- A behavior-valued configuration field before compilation: either already
a callable, or a method name to be resolved on the spider instance. -/
inductive MethodRef (β : Type) where
  | callable : β → MethodRef β
  | byName : String → MethodRef β

/-- Python truthiness of a callback-or-name-or-None field: `None` and the
empty string are falsy, callables and non-empty names are truthy.  This is
the `not callback` test in `Rule.__init__`. -/
def ref_truthy {β : Type} : Option (MethodRef β) → Bool
  | none => false
  | some (MethodRef.callable _) => true
  | some (MethodRef.byName s) => !s.isEmpty

/-- Python `x or default` on a behavior field: `None` and the falsy empty
name fall back to the default callable; anything else passes through. -/
def or_default_ref {β : Type} (m : Option (MethodRef β)) (d : β) : MethodRef β :=
  match m with
  | some (MethodRef.callable f) => MethodRef.callable f
  | some (MethodRef.byName s) =>
    if s.isEmpty then MethodRef.callable d else MethodRef.byName s
  | none => MethodRef.callable d

/-- A declared `Rule` as `Rule.__init__` stores it: `callback` and `errback`
may be absent, a name, or a callable; `process_links` and `process_request`
have already been or-defaulted to the identity filters and so are never
absent; `follow` has been defaulted. -/
structure DeclaredRule (α : Type) where
  link_extractor : Response → List Link
  callback : Option (MethodRef (Callback α))
  errback : Option (MethodRef (Errback α))
  cb_kwargs : Kwargs
  process_links : MethodRef ProcessLinksT
  process_request : MethodRef ProcessRequestT
  follow : Bool

/-- `Rule.__init__(link_extractor, callback, cb_kwargs, follow,
process_links, process_request, errback)`: missing extractor falls back to
the catch-all default extractor, missing kwargs to `{}`, missing filters to
the identity filters, and a missing `follow` defaults to `not callback`
(Python truthiness). -/
def mkRule {α : Type} (link_extractor : Option (Response → List Link))
    (callback : Option (MethodRef (Callback α)))
    (cb_kwargs : Option Kwargs)
    (follow : Option Bool)
    (process_links : Option (MethodRef ProcessLinksT))
    (process_request : Option (MethodRef ProcessRequestT))
    (errback : Option (MethodRef (Errback α))) : DeclaredRule α :=
  { link_extractor := link_extractor.getD (fun response => response.links)
    callback := callback
    errback := errback
    cb_kwargs := cb_kwargs.getD []
    process_links := or_default_ref process_links _identity
    process_request := or_default_ref process_request _identity_process_request
    follow := match follow with
      | some b => b
      | none => !ref_truthy callback }

/-- The attribute namespace of a concrete spider instance, as `getattr`
consults it during rule compilation, split by the type at which each rule
field consumes the attribute. -/
structure SpiderNs (α : Type) where
  cb_attrs : String → Option (Callback α)
  eb_attrs : String → Option (Errback α)
  pl_attrs : String → Option ProcessLinksT
  pr_attrs : String → Option ProcessRequestT

/-- `_get_method(method, spider)`: callables pass through, names are looked
up with `getattr(spider, method, None)`, anything else resolves to `None`.
The spider is represented by the relevant slice of its attribute
namespace. -/
def _get_method {β : Type} (method : Option (MethodRef β))
    (getattr : String → Option β) : Option β :=
  match method with
  | some (MethodRef.callable f) => some f
  | some (MethodRef.byName s) => getattr s
  | none => none

/-- A `Rule` after `Rule._compile(spider)` ran on a (copy of a) declared
rule: every behavior field is now callable-or-`None`; in particular
`process_links` and `process_request` are `None` whenever they were given
as a name that does not resolve on the spider. -/
structure CompiledRule (α : Type) where
  link_extractor : Response → List Link
  callback : Option (Callback α)
  errback : Option (Errback α)
  cb_kwargs : Kwargs
  process_links : Option ProcessLinksT
  process_request : Option ProcessRequestT
  follow : Bool

/-- `Rule._compile(spider)`: resolve each behavior field with `_get_method`;
`link_extractor`, `cb_kwargs` and `follow` are untouched. -/
def _compile {α : Type} (r : DeclaredRule α) (sp : SpiderNs α) : CompiledRule α :=
  { link_extractor := r.link_extractor
    callback := _get_method r.callback sp.cb_attrs
    errback := _get_method r.errback sp.eb_attrs
    cb_kwargs := r.cb_kwargs
    process_links := _get_method (some r.process_links) sp.pl_attrs
    process_request := _get_method (some r.process_request) sp.pr_attrs
    follow := r.follow }

/-- `CrawlSpider._compile_rules`: compile a copy of every declared rule
against the spider instance. -/
def _compile_rules {α : Type} (rules : List (DeclaredRule α)) (sp : SpiderNs α) :
    List (CompiledRule α) :=
  rules.map fun r => _compile r sp

/-- The message Python raises when code calls a `None` field. -/
def pyCallNoneMsg : String := "TypeError: NoneType object is not callable"

/-- Calling a possibly-`None` unary field, as Python does: calling `None`
raises a `TypeError`. -/
def call_py1 {β γ : Type} (f : Option (β → γ)) (x : β) : Except String γ :=
  match f with
  | some g => Except.ok (g x)
  | none => Except.error pyCallNoneMsg

/-- Calling a possibly-`None` binary field, as Python does. -/
def call_py2 {β γ δ : Type} (f : Option (β → γ → δ)) (x : β) (y : γ) :
    Except String δ :=
  match f with
  | some g => Except.ok (g x y)
  | none => Except.error pyCallNoneMsg

/-- The inner loop of `_requests_to_follow` over a *compiled* rule, without
the source's `cast` assumption that `process_request` is callable: calling an
unresolved (absent) filter raises. -/
def followLoopC {α : Type} (rule : CompiledRule α) (response : Response)
    (rule_index : Nat) :
    List Link → List String → Except String (List (Option Request) × List String)
  | [], seen => Except.ok ([], seen)
  | link :: rest, seen => do
    let seen2 := link.url :: seen
    let request := _build_request rule_index link
    let out ← call_py2 rule.process_request request response
    let next ← followLoopC rule response rule_index rest seen2
    Except.ok (out :: next.1, next.2)

/-- The outer loop of `_requests_to_follow` over compiled rules, without the
source's `cast` assumption that `process_links` is callable. -/
def rulesLoopC {α : Type} (response : Response) :
    List (CompiledRule α) → Nat → List String →
      Except String (List (Option Request))
  | [], _, _ => Except.ok []
  | rule :: rest, rule_index, seen => do
    let links := (rule.link_extractor response).filter fun lnk => decide (lnk.url ∉ seen)
    let processed ← call_py1 rule.process_links links
    let step ← followLoopC rule response rule_index processed seen
    let tail ← rulesLoopC response rest (rule_index + 1) step.2
    Except.ok (step.1 ++ tail)

/-- `_requests_to_follow` run over the compiled rule table as it really is
after `_compile` (filters callable-or-`None`): traversal of a parseable
response raises if a reached rule's `process_links` (or, once a link
survives, `process_request`) resolved to `None`. -/
def requests_to_follow_compiled {α : Type} (rules : List (CompiledRule α))
    (response : Response) : Except String (List (Option Request)) :=
  if response.html then rulesLoopC response rules 0 [] else Except.ok []

/-- The per-step view of one traversal: the rule (with its table index) and
the surviving link a request was built from.  `_requests_to_follow` emits
exactly one `process_request` result per step (proved below); the dedup
state evolves exactly as in `rulesLoop`. -/
def traversal_steps {α : Type} (response : Response) :
    List (Rule α) → Nat → List String → List (Nat × Rule α × Link)
  | [], _, _ => []
  | rule :: rest, rule_index, seen =>
    let links := (rule.link_extractor response).filter fun lnk => decide (lnk.url ∉ seen)
    let processed := rule.process_links links
    processed.map (fun l => (rule_index, rule, l)) ++
      traversal_steps response rest (rule_index + 1)
        ((processed.map (fun l => l.url)).reverse ++ seen)

/-! Concrete inputs used by the witnesses and counterexamples below. -/

/-- A sample extracted link. -/
def exLink : Link := { url := "http://a.example/one", text := "one" }

/-- A second sample extracted link with a different url. -/
def exLink2 : Link := { url := "http://a.example/two", text := "two" }

/-- A parseable HTML response whose page carries the two sample links. -/
def sampleResp : Response :=
  { url := "http://a.example/", html := true, links := [exLink, exLink2], meta_rule := none }

/-- A response that is not an `HtmlResponse`. -/
def nonHtmlResp : Response :=
  { url := "http://a.example/f.bin", html := false, links := [], meta_rule := none }

/-- A rule whose extractor matches `exLink` but whose `process_links` filter
drops every candidate. -/
def dropRule : Rule Nat :=
  { link_extractor := fun _ => [exLink], callback := none, errback := none,
    cb_kwargs := [], process_links := fun _ => [],
    process_request := _identity_process_request, follow := true }

/-- A rule whose extractor matches `exLink`, with the default filters. -/
def keepRule : Rule Nat :=
  { link_extractor := fun _ => [exLink], callback := none, errback := none,
    cb_kwargs := [], process_links := _identity,
    process_request := _identity_process_request, follow := true }

/-- A one-rule catch-all with the default filters. -/
def bothRule : Rule Nat :=
  { link_extractor := fun response => response.links, callback := none,
    errback := none, cb_kwargs := [], process_links := _identity,
    process_request := _identity_process_request, follow := true }

/-- A rule whose `process_request` filter returns `None` for every request. -/
def nullPrRule : Rule Nat :=
  { link_extractor := fun _ => [exLink], callback := none, errback := none,
    cb_kwargs := [], process_links := _identity,
    process_request := fun _ _ => none, follow := true }

/-- An errback producing one item through the async-iterator shape. -/
def exErrback : Errback Nat := fun _ => CbRes.asyncGen [CbElem.scalar (Obj.val 5)]

/-- A rule carrying `exErrback`. -/
def ebRule : Rule Nat :=
  { link_extractor := fun _ => [], callback := none, errback := some exErrback,
    cb_kwargs := [], process_links := _identity,
    process_request := _identity_process_request, follow := true }

/-- Spider: rule 0 extracts and then drops `exLink`, rule 1 extracts it with
the default filters. -/
def dropSpider : CrawlSpider Nat :=
  { rules := [dropRule, keepRule], follow_links := true,
    process_results := fun _ v => v }

/-- Spider with two default-filter rules whose extractors overlap completely. -/
def twoKeepSpider : CrawlSpider Nat :=
  { rules := [keepRule, keepRule], follow_links := true,
    process_results := fun _ v => v }

/-- Spider with the single catch-all rule. -/
def bothSpider : CrawlSpider Nat :=
  { rules := [bothRule], follow_links := true, process_results := fun _ v => v }

/-- Spider whose only rule nulls every request in `process_request`. -/
def nullPrSpider : CrawlSpider Nat :=
  { rules := [nullPrRule], follow_links := true, process_results := fun _ v => v }

/-- Spider carrying the errback rule. -/
def ebSpider : CrawlSpider Nat :=
  { rules := [ebRule], follow_links := true, process_results := fun _ v => v }

/-- A fetch failure whose originating request is tagged with rule index 0. -/
def exFailure : Failure :=
  { request := { url := "http://a.example/one", rule_index := 0, link_text := "one" } }

/-- A callback returning, at any input, exactly what `exErrback` returns for
`exFailure`. -/
def exCb : Callback Nat := fun _ _ => CbRes.asyncGen [CbElem.scalar (Obj.val 5)]

/-- A callback returning a plain materialized sequence of two scalar items. -/
def seqCb : Callback Nat :=
  fun _ _ => CbRes.plain (CbValue.seq [CbElem.scalar (Obj.val 0), CbElem.scalar (Obj.val 1)])

/-- A callback returning a scalar element followed by a nested iterable
element. -/
def nestedCb : Callback Nat :=
  fun _ _ => CbRes.plain (CbValue.seq
    [CbElem.scalar (Obj.val 0), CbElem.nested [Obj.val 1, Obj.val 2]])

/-- A settings table with every boolean option off. -/
def offSettings : String → Bool := fun _ => false

/-- A spider attribute namespace on which no name resolves. -/
def c9_ns : SpiderNs Nat :=
  { cb_attrs := fun _ => none, eb_attrs := fun _ => none,
    pl_attrs := fun _ => none, pr_attrs := fun _ => none }

/-- A declared rule whose four behavior fields are all the unresolvable name
`"nope"`. -/
def c9_declared : DeclaredRule Nat :=
  mkRule none (some (MethodRef.byName "nope")) none none
    (some (MethodRef.byName "nope")) (some (MethodRef.byName "nope"))
    (some (MethodRef.byName "nope"))

/-- A compiled rule whose `process_links` resolved to a callable producing a
link, but whose `process_request` resolved to absence. -/
def c9_prOnly : CompiledRule Nat :=
  { link_extractor := fun _ => [], callback := none, errback := none,
    cb_kwargs := [], process_links := some (fun _ => [exLink]),
    process_request := none, follow := true }

/-! Shared lemmas about the embedded definitions. -/

@[simp]
lemma or_empty_plain_nil {ω : Type} :
    or_empty (CbRes.plain (CbValue.nil : CbValue ω)) = CbRes.plain (CbValue.seq []) := rfl

@[simp]
lemma or_empty_plain_seq {ω : Type} (xs : List (CbElem ω)) :
    or_empty (CbRes.plain (CbValue.seq xs)) = CbRes.plain (CbValue.seq xs) := rfl

@[simp]
lemma or_empty_await1 {ω : Type} (v : CbValue ω) :
    or_empty (CbRes.await1 v) = CbRes.await1 v := rfl

@[simp]
lemma or_empty_asyncGen {ω : Type} (g : List (CbElem ω)) :
    or_empty (CbRes.asyncGen g) = CbRes.asyncGen g := rfl

@[simp]
lemma iterate_plain_nil {ω : Type} :
    iterate_spider_output (CbRes.plain (CbValue.nil : CbValue ω)) = [] := rfl

@[simp]
lemma iterate_plain_seq {ω : Type} (xs : List (CbElem ω)) :
    iterate_spider_output (CbRes.plain (CbValue.seq xs)) = flattenOne xs := rfl

@[simp]
lemma iterate_await1_nil {ω : Type} :
    iterate_spider_output (CbRes.await1 (CbValue.nil : CbValue ω)) = [] := rfl

@[simp]
lemma iterate_await1_seq {ω : Type} (xs : List (CbElem ω)) :
    iterate_spider_output (CbRes.await1 (CbValue.seq xs)) = flattenOne xs := rfl

@[simp]
lemma iterate_asyncGen {ω : Type} (xs : List (CbElem ω)) :
    iterate_spider_output (CbRes.asyncGen xs) = flattenOne xs := rfl

lemma flattenOne_eq_flatMap {ω : Type} (xs : List (CbElem ω)) :
    flattenOne xs = xs.flatMap elem_list := by
  induction xs with
  | nil => rfl
  | cons e rest ih => cases e <;> simp [flattenOne, elem_list, ih]

lemma followLoop_fst {α : Type} (rule : Rule α) (response : Response) (i : Nat)
    (ls : List Link) (seen : List String) :
    (followLoop rule response i ls seen).1
      = ls.map fun l => rule.process_request (_build_request i l) response := by
  induction ls generalizing seen with
  | nil => simp [followLoop]
  | cons a t ih => simp [followLoop, ih]

lemma followLoop_snd {α : Type} (rule : Rule α) (response : Response) (i : Nat)
    (ls : List Link) (seen : List String) :
    (followLoop rule response i ls seen).2
      = (ls.map fun l => l.url).reverse ++ seen := by
  induction ls generalizing seen with
  | nil => simp [followLoop]
  | cons a t ih => simp [followLoop, ih]

lemma rulesLoop_eq_steps {α : Type} (response : Response) (rules : List (Rule α)) :
    ∀ (idx : Nat) (seen : List String),
      rulesLoop response rules idx seen
        = (traversal_steps response rules idx seen).map
            fun t => t.2.1.process_request (_build_request t.1 t.2.2) response := by
  induction rules with
  | nil => intro idx seen; simp [rulesLoop, traversal_steps]
  | cons rule rest ih =>
    intro idx seen
    simp only [rulesLoop, traversal_steps]
    rw [followLoop_fst, followLoop_snd, ih]
    simp [List.map_map, Function.comp]

lemma filterMap_id_map_some {β γ : Type} (f : γ → β) (l : List γ) :
    (l.map fun x => some (f x)).filterMap id = l.map f := by
  induction l with
  | nil => rfl
  | cons a t ih => simp [ih]

lemma map_url_filter (l : List Link) (seen : List String) :
    ((l.filter fun lnk => decide (lnk.url ∉ seen)).map fun x => x.url)
      = (l.map fun x => x.url).filter fun u => decide (u ∉ seen) := by
  induction l with
  | nil => rfl
  | cons a t ih => by_cases h : a.url ∈ seen <;> simpa [h] using ih

lemma map_url_build (i : Nat) (ls : List Link) :
    ((ls.map fun l => _build_request i l).map fun r => r.url)
      = ls.map fun l => l.url := by
  induction ls with
  | nil => rfl
  | cons a t ih => simp [_build_request, ih]

/-- The normalization `_handle_failure` applies to an errback result agrees
with the shape-collapsing chain `parse_with_rules` applies to an identical
callback result. -/
lemma iterate_or_empty_cases {ω : Type} (r : CbRes ω) :
    iterate_spider_output (or_empty r)
      = iterate_spider_output (CbRes.plain
          (match or_empty r with
            | CbRes.asyncGen g => CbValue.seq (collect_asyncgen g)
            | CbRes.await1 v => v
            | CbRes.plain v => v)) := by
  cases r with
  | plain v => cases v <;> rfl
  | await1 v => cases v <;> rfl
  | asyncGen g => rfl

/-- One unfolding step of the traversal over `enumerate(self._rules)`. -/
lemma rulesLoop_cons {α : Type} (response : Response) (rule : Rule α)
    (rest : List (Rule α)) (idx : Nat) (seen : List String) :
    rulesLoop response (rule :: rest) idx seen
      = (rule.process_links
            ((rule.link_extractor response).filter fun lnk => decide (lnk.url ∉ seen))).map
          (fun l => rule.process_request (_build_request idx l) response)
        ++ rulesLoop response rest (idx + 1)
            (((rule.process_links
                  ((rule.link_extractor response).filter fun lnk => decide (lnk.url ∉ seen))).map
                fun l => l.url).reverse ++ seen) := by
  simp only [rulesLoop]
  rw [followLoop_fst, followLoop_snd]

/-- Characterization of the traversal when every rule keeps the default
(identity) link filter and (pass-through) request filter and extracts
duplicate-free url lists: the emitted requests carry pairwise distinct urls,
none of them was in the incoming seen-set, and each is attributed to the
first rule (at or after the current index) whose extractor matched its
url. -/
lemma rulesLoop_default {α : Type} (response : Response) (rules : List (Rule α)) :
    ∀ (idx : Nat) (seen : List String),
      (∀ r ∈ rules, ∀ ls, r.process_links ls = ls) →
      (∀ r ∈ rules, ∀ req resp2, r.process_request req resp2 = some req) →
      (∀ r ∈ rules, ((r.link_extractor response).map fun l => l.url).Nodup) →
      ((((rulesLoop response rules idx seen).filterMap id).map fun r => r.url).Nodup)
      ∧ (∀ r ∈ (rulesLoop response rules idx seen).filterMap id, r.url ∉ seen)
      ∧ (∀ r ∈ (rulesLoop response rules idx seen).filterMap id,
          ∃ k rule, rules.get? k = some rule ∧ r.rule_index = idx + k
            ∧ r.url ∈ ((rule.link_extractor response).map fun l => l.url)
            ∧ ∀ j rule2, j < k → rules.get? j = some rule2 →
                r.url ∉ ((rule2.link_extractor response).map fun l => l.url)) := by
  induction rules with
  | nil =>
    intro idx seen _ _ _
    refine ⟨by simp [rulesLoop], by simp [rulesLoop], by simp [rulesLoop]⟩
  | cons rule rest ih =>
    intro idx seen hpl hpr hnd
    have hplh : ∀ ls, rule.process_links ls = ls := hpl rule (by simp)
    have hprh : ∀ req resp2, rule.process_request req resp2 = some req :=
      hpr rule (by simp)
    have hndh : ((rule.link_extractor response).map fun l => l.url).Nodup :=
      hnd rule (by simp)
    have hout : rulesLoop response (rule :: rest) idx seen
        = (((rule.link_extractor response).filter fun lnk => decide (lnk.url ∉ seen)).map
            fun l => some (_build_request idx l))
          ++ rulesLoop response rest (idx + 1)
              ((((rule.link_extractor response).filter fun lnk =>
                    decide (lnk.url ∉ seen)).map fun l => l.url).reverse ++ seen) := by
      rw [rulesLoop_cons, hplh]
      simp only [hprh]
    obtain ⟨IH1, IH2, IH3⟩ :=
      ih (idx + 1)
        ((((rule.link_extractor response).filter fun lnk =>
              decide (lnk.url ∉ seen)).map fun l => l.url).reverse ++ seen)
        (fun r hr => hpl r (by simp [hr])) (fun r hr => hpr r (by simp [hr]))
        (fun r hr => hnd r (by simp [hr]))
    have hfm : (rulesLoop response (rule :: rest) idx seen).filterMap id
        = (((rule.link_extractor response).filter fun lnk => decide (lnk.url ∉ seen)).map
            fun l => _build_request idx l)
          ++ (rulesLoop response rest (idx + 1)
                ((((rule.link_extractor response).filter fun lnk =>
                      decide (lnk.url ∉ seen)).map fun l => l.url).reverse ++ seen)).filterMap id := by
      rw [hout, List.filterMap_append, filterMap_id_map_some]
    have hmem_links : ∀ u,
        u ∈ (((rule.link_extractor response).filter fun lnk =>
                decide (lnk.url ∉ seen)).map fun l => l.url)
          ↔ (u ∈ ((rule.link_extractor response).map fun l => l.url) ∧ u ∉ seen) := by
      intro u
      rw [map_url_filter]
      simp [List.mem_filter]
    have hnd_links : (((rule.link_extractor response).filter fun lnk =>
          decide (lnk.url ∉ seen)).map fun l => l.url).Nodup := by
      rw [map_url_filter]
      exact hndh.filter _
    rw [hfm]
    refine ⟨?_, ?_, ?_⟩
    · rw [List.map_append, map_url_build]
      refine List.Nodup.append hnd_links IH1 ?_
      intro u hu hu2
      obtain ⟨r, hr, hru⟩ := List.mem_map.mp hu2
      have hseen2 := IH2 r hr
      apply hseen2
      rw [List.mem_append, List.mem_reverse]
      exact Or.inl (hru ▸ hu)
    · intro r hr
      rcases List.mem_append.mp hr with hleft | hright
      · obtain ⟨l, hl, hlr⟩ := List.mem_map.mp hleft
        have : l.url ∈ (((rule.link_extractor response).filter fun lnk =>
            decide (lnk.url ∉ seen)).map fun x => x.url) :=
          List.mem_map.mpr ⟨l, hl, rfl⟩
        have hnotseen := ((hmem_links l.url).mp this).2
        rw [← hlr]
        exact hnotseen
      · intro hcontra
        exact IH2 r hright (by rw [List.mem_append]; exact Or.inr hcontra)
    · intro r hr
      rcases List.mem_append.mp hr with hleft | hright
      · obtain ⟨l, hl, hlr⟩ := List.mem_map.mp hleft
        refine ⟨0, rule, rfl, ?_, ?_, ?_⟩
        · rw [← hlr]; simp [_build_request]
        · rw [← hlr]
          show (_build_request idx l).url ∈ _
          have hlmem := List.mem_of_mem_filter hl
          exact List.mem_map.mpr ⟨l, hlmem, rfl⟩
        · intro j rule2 hj
          exact absurd hj (Nat.not_lt_zero j)
      · obtain ⟨k, rule2, hk, hidx, hmem, hearlier⟩ := IH3 r hright
        have hnotseen2 := IH2 r hright
        refine ⟨k + 1, rule2, by simpa using hk, by omega, hmem, ?_⟩
        intro j rule3 hj hget
        cases j with
        | zero =>
          have hrule3 : rule3 = rule := by
            simpa using hget.symm
          rw [hrule3]
          intro hcontra
          have hnot_seen : r.url ∉ seen := by
            intro hs
            exact hnotseen2 (by rw [List.mem_append]; exact Or.inr hs)
          have hin_links : r.url ∈ (((rule.link_extractor response).filter fun lnk =>
              decide (lnk.url ∉ seen)).map fun l => l.url) :=
            (hmem_links r.url).mpr ⟨hcontra, hnot_seen⟩
          exact hnotseen2 (by rw [List.mem_append, List.mem_reverse]; exact Or.inl hin_links)
        | succ j2 =>
          exact hearlier j2 rule3 (by omega) (by simpa using hget)

/-! Claim theorems. -/

/-- Claim C1, counterexample.  As stated the claim quantifies over every
compiled Rule Table, but a rule whose `process_links` filter drops a link
does not mark it seen, so the request for that url is attributed to a later
rule even though an earlier rule's extractor matched it: here rule 0's
extractor matches `http://a.example/one` yet the single emitted request for
that url carries rule index 1. -/
theorem dedup_lowest_rule_counterexample :
    (_requests_to_follow dropSpider sampleResp).filterMap id
        = [{ url := "http://a.example/one", rule_index := 1, link_text := "one" }]
      ∧ "http://a.example/one" ∈ ((dropRule.link_extractor sampleResp).map fun l => l.url)
      ∧ dropSpider.rules.get? 0 = some dropRule := by
  refine ⟨by decide, by decide, rfl⟩

/-- Claim C1, amended: for every HTML response traversed by
`_requests_to_follow`, when every rule keeps the default identity
link-filter and pass-through request-filter and every extractor produces
duplicate-free urls, each url appears among the emitted follow requests at
most once, and every emitted request is attributed (via its `rule_index`
routing metadata) to the lowest-indexed rule whose extractor matched its
url. -/
theorem dedup_lowest_rule {α : Type} (s : CrawlSpider α) (response : Response)
    (hhtml : response.html = true)
    (hpl : ∀ r ∈ s.rules, ∀ ls, r.process_links ls = ls)
    (hpr : ∀ r ∈ s.rules, ∀ req resp2, r.process_request req resp2 = some req)
    (hnd : ∀ r ∈ s.rules, ((r.link_extractor response).map fun l => l.url).Nodup) :
    ((((_requests_to_follow s response).filterMap id).map fun r => r.url).Nodup)
    ∧ ∀ r ∈ (_requests_to_follow s response).filterMap id,
        ∃ rule, s.rules.get? r.rule_index = some rule
          ∧ r.url ∈ ((rule.link_extractor response).map fun l => l.url)
          ∧ ∀ j rule2, j < r.rule_index → s.rules.get? j = some rule2 →
              r.url ∉ ((rule2.link_extractor response).map fun l => l.url) := by
  have hbase := rulesLoop_default response s.rules 0 [] hpl hpr hnd
  have hrw : _requests_to_follow s response = rulesLoop response s.rules 0 [] := by
    simp [_requests_to_follow, hhtml]
  rw [hrw]
  refine ⟨hbase.1, ?_⟩
  intro r hr
  obtain ⟨k, rule, hk, hidx, hmem, hearlier⟩ := hbase.2.2 r hr
  have hkr : r.rule_index = k := by omega
  subst hkr
  exact ⟨rule, hk, hmem, hearlier⟩

/-- Claim C1, witness for the amended theorem: two default-filter rules with
identical extractors produce follow requests with pairwise distinct urls. -/
theorem dedup_lowest_rule_witness :
    ((((_requests_to_follow twoKeepSpider sampleResp).filterMap id).map
        fun r => r.url).Nodup) := by
  have hmem : ∀ r ∈ twoKeepSpider.rules, r = keepRule := by
    intro r hr
    have : r ∈ [keepRule, keepRule] := hr
    simpa using this
  refine (dedup_lowest_rule twoKeepSpider sampleResp rfl ?_ ?_ ?_).1
  · intro r hr ls
    rw [hmem r hr]
    rfl
  · intro r hr req resp2
    rw [hmem r hr]
    rfl
  · intro r hr
    rw [hmem r hr]
    decide

/-- Claim C3: during traversal of a parseable response, each surviving
(rule, link) step contributes exactly its request-filter result to the
output; the emitted follow requests are exactly the `some` results, so a
step whose `process_request` returns `None` contributes nothing — silently,
the traversal being a total function — and every emitted request is the
`some` result of its own step's filter. -/
theorem request_filter_null_dropped {α : Type} (s : CrawlSpider α)
    (response : Response) (hhtml : response.html = true) :
    ((_requests_to_follow s response).filterMap id
      = (traversal_steps response s.rules 0 []).filterMap
          fun t => t.2.1.process_request (_build_request t.1 t.2.2) response)
    ∧ ∀ r ∈ (_requests_to_follow s response).filterMap id,
        ∃ t ∈ traversal_steps response s.rules 0 [],
          t.2.1.process_request (_build_request t.1 t.2.2) response = some r := by
  have h1 : (_requests_to_follow s response).filterMap id
      = (traversal_steps response s.rules 0 []).filterMap
          fun t => t.2.1.process_request (_build_request t.1 t.2.2) response := by
    rw [_requests_to_follow, if_pos hhtml, rulesLoop_eq_steps]
    rw [List.filterMap_map]
    rfl
  refine ⟨h1, ?_⟩
  intro r hr
  rw [h1] at hr
  obtain ⟨t, ht, hteq⟩ := List.mem_filterMap.mp hr
  exact ⟨t, ht, hteq⟩

/-- Claim C3, witness: a rule whose request filter nulls every request emits
no follow requests at all (while its traversal steps exist). -/
theorem request_filter_null_dropped_witness :
    (_requests_to_follow nullPrSpider sampleResp).filterMap id
      = (traversal_steps sampleResp nullPrSpider.rules 0 []).filterMap
          fun t => t.2.1.process_request (_build_request t.1 t.2.2) sampleResp :=
  (request_filter_null_dropped nullPrSpider sampleResp rfl).1

/-- Claim C7: a response that is not a parseable HTML page yields zero
follow requests, whatever the rule table, and the traversal is total (no
error path exists). -/
theorem non_html_no_requests {α : Type} (s : CrawlSpider α) (response : Response)
    (h : response.html = false) : _requests_to_follow s response = [] := by
  simp [_requests_to_follow, h]

/-- Claim C7, witness: the two-rule spider emits nothing for a non-HTML
response. -/
theorem non_html_no_requests_witness : _requests_to_follow dropSpider nonHtmlResp = [] :=
  non_html_no_requests dropSpider nonHtmlResp rfl

/-- Claim C10: a link enters the seen-set only after the owning rule's
link-filter retained it, so a url extracted by rule 0 but removed by rule
0's `process_links` is not marked seen, and a later rule whose extractor
produces the same url still emits a request for it (attributed to the later
rule). -/
theorem link_filter_seen_interaction {α : Type} (s : CrawlSpider α)
    (r0 r1 : Rule α) (response : Response) (u : String)
    (hrules : s.rules = [r0, r1])
    (hhtml : response.html = true)
    (hmatch0 : u ∈ ((r0.link_extractor response).map fun l => l.url))
    (hdrop : ∀ ls, u ∉ ((r0.process_links ls).map fun l => l.url))
    (hpl1 : ∀ ls, r1.process_links ls = ls)
    (hpr1 : ∀ req resp2, r1.process_request req resp2 = some req)
    (hmatch1 : u ∈ ((r1.link_extractor response).map fun l => l.url)) :
    ∃ r ∈ (_requests_to_follow s response).filterMap id,
      r.url = u ∧ r.rule_index = 1 := by
  rw [_requests_to_follow, if_pos hhtml, hrules]
  rw [rulesLoop_cons]
  have hseen1 : ∀ v, v ∈ (((r0.process_links
      ((r0.link_extractor response).filter fun lnk =>
        decide (lnk.url ∉ ([] : List String)))).map fun l => l.url).reverse
          ++ ([] : List String)) ↔
      v ∈ ((r0.process_links ((r0.link_extractor response).filter fun lnk =>
        decide (lnk.url ∉ ([] : List String)))).map fun l => l.url) := by
    intro v
    rw [List.append_nil, List.mem_reverse]
  have hu_seen1 : u ∉ (((r0.process_links
      ((r0.link_extractor response).filter fun lnk =>
        decide (lnk.url ∉ ([] : List String)))).map fun l => l.url).reverse
          ++ ([] : List String)) := by
    rw [hseen1]
    exact hdrop _
  obtain ⟨l, hl, hlu⟩ := List.mem_map.mp hmatch1
  rw [rulesLoop_cons, hpl1]
  have hl_filter : l ∈ ((r1.link_extractor response).filter fun lnk =>
      decide (lnk.url ∉ (((r0.process_links
        ((r0.link_extractor response).filter fun lnk2 =>
          decide (lnk2.url ∉ ([] : List String)))).map fun x => x.url).reverse
            ++ ([] : List String)))) := by
    rw [List.mem_filter]
    refine ⟨hl, ?_⟩
    rw [decide_eq_true_eq, hlu]
    exact hu_seen1
  refine ⟨_build_request 1 l, ?_, hlu, rfl⟩
  rw [List.filterMap_append, List.filterMap_append]
  rw [List.mem_append, List.mem_append]
  refine Or.inr (Or.inl ?_)
  rw [List.mem_filterMap]
  refine ⟨some (_build_request 1 l), ?_, rfl⟩
  rw [List.mem_map]
  refine ⟨l, hl_filter, ?_⟩
  rw [hpr1]

/-- Claim C10, witness: with rule 0 dropping its extracted link in
`process_links` and rule 1 extracting the same url with default filters, a
request for the url is emitted with rule index 1. -/
theorem link_filter_seen_interaction_witness :
    ∃ r ∈ (_requests_to_follow dropSpider sampleResp).filterMap id,
      r.url = "http://a.example/one" ∧ r.rule_index = 1 := by
  refine link_filter_seen_interaction dropSpider dropRule keepRule sampleResp
    "http://a.example/one" rfl rfl (by decide) ?_ ?_ ?_ (by decide)
  · intro ls
    show "http://a.example/one" ∉ (([] : List Link).map fun l => l.url)
    simp
  · intro ls
    rfl
  · intro req resp2
    rfl

/-- Claim C2: with link-following enabled, the output of `parse_with_rules`
is exactly the callback's normalized output (in its own order) followed by
everything `_requests_to_follow` emits (in extraction order). -/
theorem parse_with_rules_order {α : Type} (s : CrawlSpider α) (response : Response)
    (cb : Callback α) (kw : Kwargs) (xs : List (CbElem (Obj α)))
    (hfl : s.follow_links = true)
    (hpr : ∀ resp2 v, s.process_results resp2 v = v)
    (hcb : cb response kw = CbRes.plain (CbValue.seq xs)) :
    parse_with_rules s response (some cb) kw true
      = flattenOne xs ++ (_requests_to_follow s response).map req_or_none := by
  simp [parse_with_rules, hcb, hfl, hpr]

/-- Claim C2, witness: a callback returning items `[a, b]` over a page whose
single catch-all rule follows links `[c, d]` yields exactly
`[a, b, c, d]`. -/
theorem parse_with_rules_order_witness :
    parse_with_rules bothSpider sampleResp (some seqCb) [] true
      = [Obj.val 0, Obj.val 1,
          Obj.req { url := "http://a.example/one", rule_index := 0, link_text := "one" },
          Obj.req { url := "http://a.example/two", rule_index := 0, link_text := "two" }] := by
  have h := parse_with_rules_order bothSpider sampleResp seqCb []
    [CbElem.scalar (Obj.val 0), CbElem.scalar (Obj.val 1)] rfl (fun _ _ => rfl) rfl
  rw [h]
  decide

/-- Claim C4: on a fetch failure tagged with rule index `i`, `_errback`
routes to rule `i`'s errback (its callback plays no part), and the errback's
output is normalized exactly as callback output is — any callback returning
the same result (in any of the three shapes) through the identity
`process_results` hook produces the same sequence — with no follow step:
nothing is appended after the normalized errback output. -/
theorem errback_routing_normalization {α : Type} (s s2 : CrawlSpider α)
    (failure : Failure) (rule : Rule α) (eb : Errback α) (cb : Callback α)
    (resp2 : Response) (kw : Kwargs)
    (hrule : s.rules.get? failure.request.rule_index = some rule)
    (heb : rule.errback = some eb)
    (hpr : ∀ resp3 v, s2.process_results resp3 v = v)
    (hcb : cb resp2 kw = eb failure) :
    _errback s failure = some (parse_with_rules s2 resp2 (some cb) kw false) := by
  rw [_errback, hrule]
  simp only [Option.map_some']
  congr 1
  rw [heb]
  simp only [_handle_failure]
  cases heq : eb failure with
  | plain v => cases v <;> simp [parse_with_rules, hcb, heq, hpr]
  | await1 v => cases v <;> simp [parse_with_rules, hcb, heq, hpr]
  | asyncGen g => simp [parse_with_rules, hcb, heq, hpr, collect_asyncgen]

/-- Claim C4, witness: the errback spider's failure output equals the
callback-side normalization of the same async-iterator result. -/
theorem errback_routing_normalization_witness :
    _errback ebSpider exFailure
      = some (parse_with_rules ebSpider sampleResp (some exCb) [] false) :=
  errback_routing_normalization ebSpider ebSpider exFailure ebRule exErrback exCb
    sampleResp [] rfl rfl (fun _ _ => rfl) rfl

/-- Claim C5: in `parse_with_rules`, a null or empty callback return (plain
`None`, an awaitable resolving to `None`, or an empty sequence) normalizes
to the empty output, and a materialized sequence is flattened exactly one
level in source order: scalar elements pass through untouched, nested
iterable elements are expanded element-by-element. -/
theorem callback_output_normalization {α : Type} (s : CrawlSpider α)
    (response : Response) (cb : Callback α) (kw : Kwargs)
    (hpr : ∀ resp2 v, s.process_results resp2 v = v) :
    (cb response kw = CbRes.plain CbValue.nil →
        parse_with_rules s response (some cb) kw false = [])
    ∧ (cb response kw = CbRes.await1 CbValue.nil →
        parse_with_rules s response (some cb) kw false = [])
    ∧ ∀ xs, cb response kw = CbRes.plain (CbValue.seq xs) →
        parse_with_rules s response (some cb) kw false
          = xs.flatMap elem_list := by
  refine ⟨?_, ?_, ?_⟩
  · intro hcb
    simp [parse_with_rules, hcb, hpr, flattenOne]
  · intro hcb
    simp [parse_with_rules, hcb, hpr]
  · intro xs hcb
    rw [← flattenOne_eq_flatMap]
    simp [parse_with_rules, hcb, hpr]

/-- Claim C5, witness: a callback returning a scalar and a two-element
nested iterable normalizes to the three items, flattened one level, in
source order. -/
theorem callback_output_normalization_witness :
    parse_with_rules bothSpider sampleResp (some nestedCb) [] false
      = [Obj.val 0, Obj.val 1, Obj.val 2] := by
  have h := (callback_output_normalization bothSpider sampleResp nestedCb []
      (fun _ _ => rfl)).2.2
    [CbElem.scalar (Obj.val 0), CbElem.nested [Obj.val 1, Obj.val 2]] rfl
  rw [h]
  decide

/-- Claim C8: with the `CRAWLSPIDER_FOLLOW_LINKS` setting off, the spider
built by `from_crawler` has its instance-wide follow switch off, so
`parse_with_rules` emits exactly the callback's normalized output and no
follow-link request, whatever `follow` flag the routing passed in. -/
theorem follow_links_disabled {α : Type} (s : CrawlSpider α)
    (settings : String → Bool) (response : Response) (cb : Callback α)
    (kw : Kwargs) (fl : Bool) (xs : List (CbElem (Obj α)))
    (hset : settings "CRAWLSPIDER_FOLLOW_LINKS" = false)
    (hpr : ∀ resp2 v, s.process_results resp2 v = v)
    (hcb : cb response kw = CbRes.plain (CbValue.seq xs)) :
    parse_with_rules (from_crawler s settings) response (some cb) kw fl
      = flattenOne xs := by
  simp [parse_with_rules, from_crawler, hset, hcb, hpr]

/-- Claim C8, witness: under all-off settings the catch-all spider emits the
callback items and none of the page's follow requests. -/
theorem follow_links_disabled_witness :
    parse_with_rules (from_crawler bothSpider offSettings) sampleResp
      (some seqCb) [] true = [Obj.val 0, Obj.val 1] := by
  have h := follow_links_disabled bothSpider offSettings sampleResp seqCb [] true
    [CbElem.scalar (Obj.val 0), CbElem.scalar (Obj.val 1)] rfl (fun _ _ => rfl) rfl
  rw [h]
  decide

/-- Claim C6, counterexample.  `Rule.__init__` defaults `follow` with
Python truthiness (`not callback`), not with an is-None test: a rule
constructed with the empty string as callback name — a callback argument
that was given, not absent — still gets `follow = true`, contradicting the
claim that `follow` is true exactly when no callback was given. -/
theorem rule_follow_default_counterexample :
    (@mkRule Nat none (some (MethodRef.byName "")) none none none none none).follow
        = true
      ∧ some (MethodRef.byName "") ≠ (none : Option (MethodRef (Callback Nat))) :=
  ⟨rfl, by simp⟩

/-- Claim C6, amended: for a rule constructed without an explicit `follow`
argument, `follow` is true exactly when the callback argument is falsy —
absent or the empty name string; a callable or a non-empty name gives
`follow = false`, and an explicit `follow` argument is always honored. -/
theorem rule_follow_default {α : Type} (le : Option (Response → List Link))
    (kw : Option Kwargs) (pl : Option (MethodRef ProcessLinksT))
    (pr : Option (MethodRef ProcessRequestT)) (eb : Option (MethodRef (Errback α))) :
    ((mkRule le none kw none pl pr eb).follow = true)
    ∧ (∀ f : Callback α,
        (mkRule le (some (MethodRef.callable f)) kw none pl pr eb).follow = false)
    ∧ (∀ nm : String,
        (mkRule le (some (MethodRef.byName nm)) kw none pl pr eb).follow = nm.isEmpty)
    ∧ (∀ (b : Bool) (cba : Option (MethodRef (Callback α))),
        (mkRule le cba kw (some b) pl pr eb).follow = b) := by
  refine ⟨rfl, fun f => rfl, fun nm => ?_, fun b cba => rfl⟩
  simp [mkRule, ref_truthy, Bool.not_not]

/-- Claim C9, counterexample.  Compiling a rule whose `process_links` is an
unresolvable name does not raise and the field resolves to absence — but the
absence is not silent: traversing any parseable HTML response with that
compiled rule calls the absent filter and raises a `TypeError`, i.e. there
IS a later runtime error during traversal. -/
theorem unresolved_names_counterexample :
    (_compile c9_declared c9_ns).process_links = none
    ∧ requests_to_follow_compiled [_compile c9_declared c9_ns] sampleResp
        = Except.error pyCallNoneMsg :=
  ⟨rfl, rfl⟩

/-- Claim C9, amended: compiling a rule whose callback, errback, link-filter
or request-filter is an unresolvable name does not raise and resolves the
field to absence; absence of the callback or errback is a valid silent
configuration (nothing is emitted, no error), but an absent `process_links`
— or an absent `process_request` once a link survives — raises a
`TypeError` when the rule traverses a parseable HTML response. -/
theorem unresolved_names_absent {α : Type} (ns : SpiderNs α) (r : DeclaredRule α)
    (nm : String) (cr : CompiledRule α) (response : Response) (pl : ProcessLinksT) :
    (r.callback = some (MethodRef.byName nm) → ns.cb_attrs nm = none →
        (_compile r ns).callback = none)
    ∧ (r.errback = some (MethodRef.byName nm) → ns.eb_attrs nm = none →
        (_compile r ns).errback = none)
    ∧ (r.process_links = MethodRef.byName nm → ns.pl_attrs nm = none →
        (_compile r ns).process_links = none)
    ∧ (r.process_request = MethodRef.byName nm → ns.pr_attrs nm = none →
        (_compile r ns).process_request = none)
    ∧ (∀ (s : CrawlSpider α) (resp2 : Response) (kw : Kwargs),
        parse_with_rules s resp2 none kw false = [])
    ∧ (∀ f : Failure, _handle_failure f (none : Option (Errback α)) = [])
    ∧ (cr.process_links = none → response.html = true →
        requests_to_follow_compiled [cr] response = Except.error pyCallNoneMsg)
    ∧ (cr.process_links = some pl → cr.process_request = none →
        response.html = true → (∀ ls, pl ls ≠ []) →
        requests_to_follow_compiled [cr] response = Except.error pyCallNoneMsg) := by
  refine ⟨?_, ?_, ?_, ?_, ?_, ?_, ?_, ?_⟩
  · intro h1 h2
    simp [_compile, _get_method, h1, h2]
  · intro h1 h2
    simp [_compile, _get_method, h1, h2]
  · intro h1 h2
    simp [_compile, _get_method, h1, h2]
  · intro h1 h2
    simp [_compile, _get_method, h1, h2]
  · intro s resp2 kw
    simp [parse_with_rules]
  · intro f
    rfl
  · intro h hh
    rw [requests_to_follow_compiled, if_pos hh]
    simp [rulesLoopC, h, call_py1, Bind.bind, Except.bind]
  · intro hplc hprc hh hne
    rw [requests_to_follow_compiled, if_pos hh]
    simp only [rulesLoopC, hplc, call_py1, Bind.bind, Except.bind]
    cases hls : pl ((cr.link_extractor response).filter fun lnk =>
        decide (lnk.url ∉ ([] : List String))) with
    | nil => exact absurd hls (hne _)
    | cons l t =>
      simp [hls, followLoopC, call_py2, hprc, Bind.bind, Except.bind]

/-- Claim C9, witness for the amended theorem: the all-unresolvable declared
rule compiles to an absent callback, and a compiled rule whose
`process_request` is absent raises once a link survives its
`process_links`. -/
theorem unresolved_names_absent_witness :
    (_compile c9_declared c9_ns).callback = none
    ∧ requests_to_follow_compiled [c9_prOnly] sampleResp
        = Except.error pyCallNoneMsg := by
  have h := unresolved_names_absent c9_ns c9_declared "nope" c9_prOnly sampleResp
    (fun _ => [exLink])
  refine ⟨h.1 rfl rfl, h.2.2.2.2.2.2.2 rfl rfl rfl ?_⟩
  intro ls
  simp

end ScrapyCrawl
